import Mathlib

set_option maxHeartbeats 1000000

/-!
Shallow embedding of `src/telegram/ext/utils/callbackdatacache.py`
(the `CallbackDataCache` of the JuanParker1/chat-bot repository).

Conventions of the embedding:
* Python values that can appear in the untyped payload slots are modelled by
  the small universe `PyVal`; Python truthiness is modelled explicitly.
* The two bounded stores (`cachetools.LRUCache`, an external library) are
  modelled as association lists ordered from least- to most-recently touched;
  timestamps (`time.time()` floats) are modelled as rationals supplied as an
  explicit `now` argument.
* The `uuid4().hex` generator is modelled as an explicit generator function
  `gen : Nat → String` together with a counter that the operations thread.
* Operations whose Python original can raise return `Except PyError`; the
  single lock of the source is a no-op in this sequential model.
-/

/-- Python runtime values appearing as button payloads, callback data and
resolution results. `invalid raw` stands for an `InvalidCallbackData`
exception instance carrying the raw token that could not be resolved. -/
inductive PyVal where
  | str (s : String)
  | int (n : Int)
  | obj (oid : Nat)
  | invalid (raw : String)
deriving DecidableEq, Repr

/-- Python truthiness of a `PyVal`: the empty string and zero are falsy; any
object (including an `InvalidCallbackData` instance) is truthy. -/
def pyTruthy : PyVal → Bool
  | .str s => !s.isEmpty
  | .int n => n != 0
  | .obj _ => true
  | .invalid _ => true

/-- Truthiness of an optional attribute: Python `None` is falsy. -/
def optTruthy : Option PyVal → Bool
  | none => false
  | some v => pyTruthy v

/-- Python exception kinds that the modelled operations can raise. -/
inductive PyError where
  | keyError
  | attributeError
  | runtimeError
  | typeError
deriving DecidableEq, Repr

/-- Lookup in a string-keyed mapping modelled as an association list (used both
for the bounded stores and for plain Python dicts). -/
def lruLookup {β : Type} (es : List (String × β)) (k : String) : Option β :=
  (es.find? (fun p => p.1 == k)).map (fun p => p.2)

/-- Modelled from the spec: the Bounded Store (`cachetools.LRUCache`, an
external dependency, not under src/) is "a capacity-limited mapping with
least-recently-used eviction: on insertion when at capacity, the
least-recently-touched entry (by access, not just insertion) is silently
dropped before the new entry is added"; updating an existing key also marks it
most recently used. The list is ordered least-recently-touched first, so
insertion removes any old entry for the key, drops from the front while the
store would overflow, and appends at the most-recent end. -/
def lruSet {β : Type} (cap : Nat) (es : List (String × β)) (k : String) (v : β) :
    List (String × β) :=
  let es' := es.filter (fun p => p.1 != k)
  es'.drop (es'.length + 1 - cap) ++ [(k, v)]

/-- Modelled from the spec: a successful `LRUCache.__getitem__` marks the entry
most recently used (moves it to the most-recent end); a miss changes nothing. -/
def lruTouch {β : Type} (es : List (String × β)) (k : String) : List (String × β) :=
  match es.find? (fun p => p.1 == k) with
  | some e => es.filter (fun p => p.1 != k) ++ [e]
  | none => es

/-- Modelled from the spec: `MutableMapping.pop` on a bounded store — returns
the stored value and the store without the key, or `none` (a `KeyError`) when
the key is absent. -/
def lruPop {β : Type} (es : List (String × β)) (k : String) :
    Option (β × List (String × β)) :=
  match lruLookup es k with
  | some v => some (v, es.filter (fun p => p.1 != k))
  | none => none

/-- Python dict item assignment on an insertion-ordered association list: an
existing key keeps its position and gets the new value, a fresh key is
appended at the end. -/
def dictSet {β : Type} (es : List (String × β)) (k : String) (v : β) :
    List (String × β) :=
  if es.any (fun p => p.1 == k) then
    es.map (fun p => if p.1 == k then (k, v) else p)
  else es ++ [(k, v)]

/-- KeyboardData: the per-keyboard record of the source — keyboard uuid, the
button-uuid-to-payload dict (insertion-ordered association list) and the last
access time in epoch seconds. -/
structure KeyboardData where
  keyboard_uuid : String
  access_time : ℚ
  button_data : List (String × PyVal)
deriving DecidableEq, Repr

/-- KeyboardData.__init__: `button_data or {}` yields the given dict (an empty
or absent dict becomes the empty dict, which coincides with passing it
through), and `access_time or time.time()` falls back to the current time when
the argument is absent or the falsy float 0.0. -/
def KeyboardData.init (keyboard_uuid : String) (now : ℚ)
    (access_time : Option ℚ) (button_data : Option (List (String × PyVal))) :
    KeyboardData :=
  { keyboard_uuid := keyboard_uuid
    button_data :=
      match button_data with
      | some bd => bd
      | none => []
    access_time :=
      match access_time with
      | some t => if t = 0 then now else t
      | none => now }

/-- KeyboardData.update: sets the access time to the current time. -/
def KeyboardData.updateTime (kd : KeyboardData) (now : ℚ) : KeyboardData :=
  { kd with access_time := now }

/-- The state of a CallbackDataCache: the capacity shared by the two bounded
stores, the keyboard-records store and the event-id-to-keyboard-id association
store. -/
structure CallbackDataCache where
  maxsize : Nat
  keyboard_data : List (String × KeyboardData)
  callback_queries : List (String × String)
deriving DecidableEq, Repr

/-- CallbackDataCache.__init__: both stores start as empty bounded stores of
the given capacity; a snapshot (`persistent_data`) is replayed through the
stores' item assignment in order. A Python 2-tuple is always truthy, so only
`None` skips the replay; we model the argument as an optional pair. -/
def CallbackDataCache.init (maxsize : Nat) (now : ℚ)
    (persistent_data :
      Option (List (String × ℚ × List (String × PyVal)) × List (String × String))) :
    CallbackDataCache :=
  match persistent_data with
  | none => { maxsize := maxsize, keyboard_data := [], callback_queries := [] }
  | some pd =>
    { maxsize := maxsize
      callback_queries :=
        pd.2.foldl (fun acc kv => lruSet maxsize acc kv.1 kv.2) []
      keyboard_data :=
        pd.1.foldl
          (fun acc t =>
            lruSet maxsize acc t.1 (KeyboardData.init t.1 now (some t.2.1) (some t.2.2)))
          [] }

/-- CallbackDataCache.extract_uuids: Python slicing `callback_data[:32]` and
`callback_data[32:]` — the first 32 characters and the rest. -/
def extract_uuids (callback_data : String) : String × String :=
  (⟨callback_data.data.take 32⟩, ⟨callback_data.data.drop 32⟩)

/-- CallbackDataCache.__put_button: stores the payload under a fresh button
uuid in the given record and returns `keyboard_uuid + button_uuid` as the
replacement token. -/
def put_button (callback_data : PyVal) (keyboard_data : KeyboardData)
    (uuid : String) : String × KeyboardData :=
  (keyboard_data.keyboard_uuid ++ uuid,
   { keyboard_data with
      button_data := dictSet keyboard_data.button_data uuid callback_data })

/-- Modelled from the spec: `telegram.InlineKeyboardButton` (not under src/) —
a button with a text and an optional payload / callback-data attribute; the
source reads only these two attributes. -/
structure InlineKeyboardButton where
  text : String
  callback_data : Option PyVal
deriving DecidableEq, Repr

/-- Modelled from the spec: `telegram.InlineKeyboardMarkup` (not under src/) —
a nested layout, rows of buttons. -/
structure InlineKeyboardMarkup where
  inline_keyboard : List (List InlineKeyboardButton)
deriving DecidableEq, Repr

/-- The inner comprehension of `__put_keyboard` over one row: every button with
truthy callback data is replaced by a fresh button carrying the token minted by
`__put_button` (consuming one uuid); all other buttons pass through unchanged.
The uuid counter threads left to right. -/
def putButtons (gen : Nat → String) :
    List InlineKeyboardButton → KeyboardData → Nat →
    List InlineKeyboardButton × KeyboardData × Nat
  | [], kd, ctr => ([], kd, ctr)
  | btn :: rest, kd, ctr =>
    match btn.callback_data with
    | some v =>
      if pyTruthy v then
        let r := put_button v kd (gen ctr)
        let rest' := putButtons gen rest r.2 (ctr + 1)
        ({ text := btn.text, callback_data := some (.str r.1) } :: rest'.1,
         rest'.2.1, rest'.2.2)
      else
        let rest' := putButtons gen rest kd ctr
        (btn :: rest'.1, rest'.2.1, rest'.2.2)
    | none =>
      let rest' := putButtons gen rest kd ctr
      (btn :: rest'.1, rest'.2.1, rest'.2.2)

/-- The outer comprehension of `__put_keyboard`: rows processed top to bottom,
threading the record being built and the uuid counter. -/
def putRows (gen : Nat → String) :
    List (List InlineKeyboardButton) → KeyboardData → Nat →
    List (List InlineKeyboardButton) × KeyboardData × Nat
  | [], kd, ctr => ([], kd, ctr)
  | row :: rest, kd, ctr =>
    let r := putButtons gen row kd ctr
    let rest' := putRows gen rest r.2.1 r.2.2
    (r.1 :: rest'.1, rest'.2.1, rest'.2.2)

/-- CallbackDataCache.put_keyboard / __put_keyboard (the lock is a no-op in
this sequential model). Draws a fresh keyboard uuid, builds the replaced
layout, and then either returns the input markup unchanged — when no button
payload had to be cached, so no record is stored — or inserts the freshly
built record into the keyboard store and returns the rebuilt markup. -/
def put_keyboard (gen : Nat → String) (ctr : Nat) (c : CallbackDataCache)
    (now : ℚ) (reply_markup : InlineKeyboardMarkup) :
    InlineKeyboardMarkup × CallbackDataCache × Nat :=
  let keyboard_uuid := gen ctr
  let kd := KeyboardData.init keyboard_uuid now none none
  let r := putRows gen reply_markup.inline_keyboard kd (ctr + 1)
  if r.2.1.button_data.isEmpty then (reply_markup, c, r.2.2)
  else
    ({ inline_keyboard := r.1 },
     { c with
        keyboard_data := lruSet c.maxsize c.keyboard_data keyboard_uuid r.2.1 },
     r.2.2)

/-- CallbackDataCache.__get_button_data: decode the token, look up the
keyboard record (a hit also marks it most recently used, per the library
getitem), then the button payload; only after both lookups succeed is the
access time set to the current time; a KeyError from either lookup is caught
and the InvalidCallbackData signal is returned with no access-time change. -/
def get_button_data (c : CallbackDataCache) (now : ℚ) (callback_data : String) :
    PyVal × CallbackDataCache :=
  let ku := (extract_uuids callback_data).1
  let bu := (extract_uuids callback_data).2
  match lruLookup c.keyboard_data ku with
  | none => (.invalid callback_data, c)
  | some kd =>
    let touched := lruTouch c.keyboard_data ku
    match lruLookup kd.button_data bu with
    | none => (.invalid callback_data, { c with keyboard_data := touched })
    | some bd =>
      (bd, { c with keyboard_data := dictSet touched ku (kd.updateTime now) })

/-- Modelled from the spec: the message attached to an event
(`telegram.Message`, not under src/); the source reads only its optional
keyboard layout. -/
structure Message where
  reply_markup : Option InlineKeyboardMarkup
deriving DecidableEq, Repr

/-- Modelled from the spec: the event object (`telegram.CallbackQuery`, not
under src/) carrying an id, an optional top-level data field and an optional
message with an optional attached keyboard layout. -/
structure CallbackQuery where
  cq_id : String
  data : Option PyVal
  message : Option Message
deriving DecidableEq, Repr

/-- Resolution of one attached button inside process_callback_query: a button
with truthy callback data has it replaced by the resolution result; a falsy
one is skipped. Slicing a truthy non-string raises TypeError. -/
def resolveButton (c : CallbackDataCache) (now : ℚ) (btn : InlineKeyboardButton) :
    Except PyError (InlineKeyboardButton × CallbackDataCache) :=
  match btn.callback_data with
  | none => .ok (btn, c)
  | some v =>
    if pyTruthy v then
      match v with
      | .str s =>
        let r := get_button_data c now s
        .ok ({ btn with callback_data := some r.1 }, r.2)
      | _ => .error .typeError
    else .ok (btn, c)

/-- Resolution over one row of attached buttons, left to right. -/
def resolveRow (now : ℚ) :
    CallbackDataCache → List InlineKeyboardButton →
    Except PyError (List InlineKeyboardButton × CallbackDataCache)
  | c, [] => .ok ([], c)
  | c, b :: rest =>
    match resolveButton c now b with
    | .error e => .error e
    | .ok r =>
      match resolveRow now r.2 rest with
      | .error e => .error e
      | .ok rr => .ok (r.1 :: rr.1, rr.2)

/-- Resolution over all rows of the attached keyboard, top to bottom. -/
def resolveRows (now : ℚ) :
    CallbackDataCache → List (List InlineKeyboardButton) →
    Except PyError (List (List InlineKeyboardButton) × CallbackDataCache)
  | c, [] => .ok ([], c)
  | c, row :: rest =>
    match resolveRow now c row with
    | .error e => .error e
    | .ok r =>
      match resolveRows now r.2 rest with
      | .error e => .error e
      | .ok rr => .ok (r.1 :: rr.1, rr.2)

/-- CallbackDataCache.process_callback_query: an event with falsy top-level
data is returned unchanged at once; otherwise the event-to-keyboard
association (event id to the keyboard half of the token) is recorded before
any resolution, then the top-level data and every truthy button of the
attached keyboard are resolved in place (failures become the
InvalidCallbackData signal in the corresponding slot). Slicing a truthy
non-string data value raises TypeError. -/
def process_callback_query (c : CallbackDataCache) (now : ℚ) (cq : CallbackQuery) :
    Except PyError (CallbackQuery × CallbackDataCache) :=
  if optTruthy cq.data then
    match cq.data with
    | some (.str s) =>
      let c1 :=
        { c with
            callback_queries :=
              lruSet c.maxsize c.callback_queries cq.cq_id (extract_uuids s).1 }
      let r := get_button_data c1 now s
      let cq1 := { cq with data := some r.1 }
      match cq.message with
      | some msg =>
        match msg.reply_markup with
        | some markup =>
          match resolveRows now r.2 markup.inline_keyboard with
          | .error e => .error e
          | .ok rr =>
            .ok ({ cq1 with
                    message := some { reply_markup := some { inline_keyboard := rr.1 } } },
                 rr.2)
        | none => .ok (cq1, r.2)
      | none => .ok (cq1, r.2)
    | _ => .error .typeError
  else .ok (cq, c)

/-- CallbackDataCache.__drop_keyboard: pop the keyboard record, swallowing the
KeyError when it is already gone. -/
def drop_keyboard (c : CallbackDataCache) (keyboard_uuid : String) :
    CallbackDataCache :=
  match lruPop c.keyboard_data keyboard_uuid with
  | some r => { c with keyboard_data := r.2 }
  | none => c

/-- CallbackDataCache.drop_data: pop the association for the event id — a
missing association raises KeyError to the caller; a found one additionally
drops the corresponding keyboard record silently. -/
def drop_data (c : CallbackDataCache) (cq_id : String) :
    Except PyError CallbackDataCache :=
  match lruPop c.callback_queries cq_id with
  | none => .error .keyError
  | some r => .ok (drop_keyboard { c with callback_queries := r.2 } r.1)

/-- The time-cutoff argument of the clearing operations: either a raw epoch
float or a datetime. Modelled from the spec: `to_float_timestamp`
(telegram.utils.helpers, not under src/) normalizes a datetime to epoch
seconds, reading naive values as UTC; the `calendar` constructor carries that
epoch rendering directly. -/
inductive TimeCutoff where
  | epoch (t : ℚ)
  | calendar (t : ℚ)
deriving DecidableEq, Repr

/-- Python truthiness of a cutoff value: the float 0.0 is falsy, datetime
objects are always truthy. -/
def TimeCutoff.truthy : TimeCutoff → Bool
  | .epoch t => decide (t ≠ 0)
  | .calendar _ => true

/-- The `isinstance(time_cutoff, datetime)` normalization of __clear: a
datetime becomes its epoch timestamp, a float is used as is. -/
def TimeCutoff.effective : TimeCutoff → ℚ
  | .epoch t => t
  | .calendar t => t

/-- Truthiness of the optional cutoff argument (`None` is falsy). -/
def cutoffTruthy : Option TimeCutoff → Bool
  | none => false
  | some tc => tc.truthy

/-- CallbackDataCache.__clear applied to the keyboard-records store. A falsy
cutoff (absent or the float 0.0) empties the store. Otherwise the source
builds a lazy generator of the keys to drop and pops from the mapping while
iterating that generator: as soon as the first qualifying key is popped, the
size of the dict backing the store changes and resuming the generator raises
RuntimeError; only when no key at all qualifies does the iteration finish
cleanly, leaving the store unchanged. -/
def clear_mapping_keyboard (es : List (String × KeyboardData))
    (tc : Option TimeCutoff) : Except PyError (List (String × KeyboardData)) :=
  if cutoffTruthy tc then
    match tc with
    | some cutoff =>
      match es.find? (fun p => decide (p.2.access_time < cutoff.effective)) with
      | none => .ok es
      | some _ => .error .runtimeError
    | none => .ok []
  else .ok []

/-- CallbackDataCache.__clear applied to the association store. The stored
values are bare keyboard-id strings, so with a truthy cutoff the first step of
the generator evaluates `data.access_time` on a string and raises
AttributeError whenever the store is nonempty; an empty store iterates
vacuously; a falsy cutoff empties the store. -/
def clear_mapping_queries (es : List (String × String)) (tc : Option TimeCutoff) :
    Except PyError (List (String × String)) :=
  if cutoffTruthy tc then
    if es.isEmpty then .ok es else .error .attributeError
  else .ok []

/-- CallbackDataCache.clear_callback_data: __clear over the keyboard store. -/
def clear_callback_data (c : CallbackDataCache) (tc : Option TimeCutoff) :
    Except PyError CallbackDataCache :=
  (clear_mapping_keyboard c.keyboard_data tc).map
    (fun es => { c with keyboard_data := es })

/-- CallbackDataCache.clear_callback_queries: __clear over the association
store. -/
def clear_callback_queries (c : CallbackDataCache) (tc : Option TimeCutoff) :
    Except PyError CallbackDataCache :=
  (clear_mapping_queries c.callback_queries tc).map
    (fun es => { c with callback_queries := es })

/-- The one-button one-payload layout used to state the capacity experiment of
the spec: inserting C + 1 distinct keyboards through put_keyboard. -/
def singleButtonMarkup : InlineKeyboardMarkup :=
  { inline_keyboard := [[{ text := "b", callback_data := some (.obj 0) }]] }

/-- Repeated put_keyboard of the one-button layout, threading the cache state
and the uuid counter through the successive calls. -/
def putMany (gen : Nat → String) (now : ℚ) :
    Nat → CallbackDataCache → Nat → CallbackDataCache × Nat
  | 0, c, ctr => (c, ctr)
  | n + 1, c, ctr =>
    let r := put_keyboard gen ctr c now singleButtonMarkup
    putMany gen now n r.2.1 r.2.2

/-- The keyboard record that one put of the one-button layout builds when the
keyboard uuid is drawn at counter position `ctr` (the button uuid follows). -/
def singleRecord (gen : Nat → String) (now : ℚ) (ctr : Nat) : KeyboardData :=
  { keyboard_uuid := gen ctr, access_time := now,
    button_data := [(gen (ctr + 1), .obj 0)] }

/-- The keyboard-store entries that n successive puts of the one-button layout
insert, in insertion order; each put consumes two uuids. -/
def freshRecords (gen : Nat → String) (now : ℚ) (ctr n : Nat) :
    List (String × KeyboardData) :=
  (List.range n).map (fun i => (gen (ctr + 2 * i), singleRecord gen now (ctr + 2 * i)))

/-- Folding bounded-store insertion over a list of entries, in order. -/
def evictFold (cap : Nat) (es : List (String × KeyboardData))
    (kvs : List (String × KeyboardData)) : List (String × KeyboardData) :=
  kvs.foldl (fun acc p => lruSet cap acc p.1 p.2) es

/-! ### Helper lemmas about the store model -/

theorem mem_lruSet {β : Type} {cap : Nat} {es : List (String × β)} {k : String}
    {v : β} {p : String × β} (hp : p ∈ lruSet cap es k v) : p ∈ es ∨ p = (k, v) := by
  unfold lruSet at hp
  rcases List.mem_append.mp hp with h | h
  · exact Or.inl (List.mem_of_mem_filter (List.mem_of_mem_drop h))
  · exact Or.inr (List.mem_singleton.mp h)

theorem lruLookup_of_not_mem_keys {β : Type} {es : List (String × β)} {k : String}
    (h : ∀ p ∈ es, p.1 ≠ k) : lruLookup es k = none := by
  unfold lruLookup
  have : es.find? (fun p => p.1 == k) = none := by
    rw [List.find?_eq_none]
    intro p hp
    simpa using h p hp
  rw [this]; rfl

theorem lruLookup_filter_self {β : Type} (es : List (String × β)) (k : String) :
    lruLookup (es.filter (fun p => p.1 != k)) k = none := by
  apply lruLookup_of_not_mem_keys
  intro p hp
  simpa using (List.mem_filter.mp hp).2

theorem lruLookup_append {β : Type} (l₁ l₂ : List (String × β)) (k : String) :
    lruLookup (l₁ ++ l₂) k = ((lruLookup l₁ k).or (lruLookup l₂ k)) := by
  unfold lruLookup
  rw [List.find?_append]
  cases l₁.find? (fun p => p.1 == k) <;> simp

theorem lruLookup_lruSet_self {β : Type} (cap : Nat) (es : List (String × β))
    (k : String) (v : β) : lruLookup (lruSet cap es k v) k = some v := by
  unfold lruSet
  rw [lruLookup_append]
  have hdrop : lruLookup ((es.filter (fun p => p.1 != k)).drop
      ((es.filter (fun p => p.1 != k)).length + 1 - cap)) k = none := by
    apply lruLookup_of_not_mem_keys
    intro p hp
    have := List.mem_of_mem_drop hp
    simpa using (List.mem_filter.mp this).2
  rw [hdrop]
  simp [lruLookup]

/-! ### Claim C1 -/

/-- C1: the claim states that `clearAssociations` (clear_callback_queries) with a
cutoff removes exactly the associations older than the cutoff without failing.
In the code the association store maps event ids to bare keyboard-id strings,
and `__clear` reads `data.access_time` off each value, so any truthy cutoff on a
nonempty association store raises AttributeError; only the no-cutoff (or falsy
cutoff) full clear works. This theorem evaluates the code at the failing input
and at the working no-cutoff input. -/
theorem clear_callback_queries_attribute_error :
    clear_callback_queries ⟨10, [], [("q1", "kb1")]⟩ (some (.epoch 1)) =
      .error .attributeError ∧
    clear_callback_queries ⟨10, [], [("q1", "kb1")]⟩ none = .ok ⟨10, [], []⟩ := by
  constructor <;> rfl

/-! ### Claim C4 -/

/-- C4: the claim states that `clearData(cutoff)` removes exactly the records
with accessTime strictly below the cutoff (including a cutoff of zero) and that
records at or above the cutoff survive. The code instead (a) pops from the
mapping while iterating a lazy generator over it, so as soon as one record
qualifies the iteration raises RuntimeError; (b) treats a raw epoch cutoff of
0 as falsy, emptying the store entirely instead of removing nothing; only when
no record qualifies does a truthy cutoff leave the store untouched as claimed.
This theorem evaluates the code at all three inputs. -/
theorem clear_callback_data_cutoff_runtime_error :
    clear_callback_data
        ⟨10, [("k1", ⟨"k1", 1, [("b", .int 1)]⟩), ("k2", ⟨"k2", 5, [("b", .int 1)]⟩)], []⟩
        (some (.epoch 3)) = .error .runtimeError ∧
    clear_callback_data ⟨10, [("k1", ⟨"k1", 1, [("b", .int 1)]⟩)], []⟩
        (some (.epoch 0)) = .ok ⟨10, [], []⟩ ∧
    clear_callback_data ⟨10, [("k1", ⟨"k1", 4, [("b", .int 1)]⟩)], []⟩
        (some (.epoch 3)) = .ok ⟨10, [("k1", ⟨"k1", 4, [("b", .int 1)]⟩)], []⟩ := by
  refine ⟨?_, ?_, ?_⟩ <;> rfl

/-! ### Claim C3 -/

/-- C3 counterexample: constructing the cache from an initial snapshot whose
keyboard tuple carries an empty button-data mapping inserts a Keyboard Record
whose buttonData is empty into the keyboard store, refuting the claim that
every insertion (putKeyboard as well as construction from an initial snapshot)
inserts only records with non-empty buttonData. -/
theorem init_snapshot_inserts_empty_record :
    (CallbackDataCache.init 2 100 (some ([("kkkk", (5 : ℚ), [])], []))).keyboard_data =
      [("kkkk", { keyboard_uuid := "kkkk", access_time := 5, button_data := [] })] ∧
    ({ keyboard_uuid := "kkkk", access_time := 5, button_data := [] } :
      KeyboardData).button_data = [] := by
  constructor <;> rfl

theorem putButtons_all_falsy (gen : Nat → String) (l : List InlineKeyboardButton)
    (kd : KeyboardData) (ctr : Nat)
    (h : ∀ btn ∈ l, optTruthy btn.callback_data = false) :
    putButtons gen l kd ctr = (l, kd, ctr) := by
  induction l with
  | nil => rfl
  | cons b rest ih =>
    have hb := h b (List.mem_cons_self _ _)
    have hr : ∀ btn ∈ rest, optTruthy btn.callback_data = false :=
      fun btn hm => h btn (List.mem_cons_of_mem _ hm)
    cases hcb : b.callback_data with
    | none => simp [putButtons, hcb, ih hr]
    | some v =>
      have hv : pyTruthy v = false := by simpa [optTruthy, hcb] using hb
      simp [putButtons, hcb, hv, ih hr]

theorem putRows_all_falsy (gen : Nat → String)
    (rows : List (List InlineKeyboardButton)) (kd : KeyboardData) (ctr : Nat)
    (h : ∀ row ∈ rows, ∀ btn ∈ row, optTruthy btn.callback_data = false) :
    putRows gen rows kd ctr = (rows, kd, ctr) := by
  induction rows with
  | nil => rfl
  | cons row rest ih =>
    have hrow := h row (List.mem_cons_self _ _)
    have hrest : ∀ r ∈ rest, ∀ btn ∈ r, optTruthy btn.callback_data = false :=
      fun r hm => h r (List.mem_cons_of_mem _ hm)
    simp [putRows, putButtons_all_falsy gen row kd ctr hrow, ih hrest]

/-! ### Claim C2 -/

/-- C2: for every keyboard layout in which no button carries a (truthy)
payload, put_keyboard returns the input layout itself unchanged and leaves the
keyboard store (and the whole cache state) untouched — no Keyboard Record is
created and no keyboard identifier is retained anywhere. -/
theorem put_keyboard_no_payload_identity (gen : Nat → String) (ctr : Nat)
    (c : CallbackDataCache) (now : ℚ) (rm : InlineKeyboardMarkup)
    (h : ∀ row ∈ rm.inline_keyboard, ∀ btn ∈ row, optTruthy btn.callback_data = false) :
    (put_keyboard gen ctr c now rm).1 = rm ∧
    (put_keyboard gen ctr c now rm).2.1 = c := by
  have hrows := putRows_all_falsy gen rm.inline_keyboard
    ⟨gen ctr, now, []⟩ (ctr + 1) h
  simp [put_keyboard, KeyboardData.init, hrows]

/-- Witness for C2 at a concrete two-row layout with a payload-free button and
an empty-string (falsy) payload button. -/
theorem put_keyboard_no_payload_identity_witness :
    (put_keyboard (fun n => "u" ++ Nat.repr n) 0 ⟨3, [], []⟩ 10
      ⟨[[⟨"t", none⟩], [⟨"u", some (.str "")⟩]]⟩).1 =
      ⟨[[⟨"t", none⟩], [⟨"u", some (.str "")⟩]]⟩ ∧
    (put_keyboard (fun n => "u" ++ Nat.repr n) 0 ⟨3, [], []⟩ 10
      ⟨[[⟨"t", none⟩], [⟨"u", some (.str "")⟩]]⟩).2.1 = ⟨3, [], []⟩ :=
  put_keyboard_no_payload_identity (fun n => "u" ++ Nat.repr n) 0 ⟨3, [], []⟩ 10
    ⟨[[⟨"t", none⟩], [⟨"u", some (.str "")⟩]]⟩ (by decide)

/-! ### Claim C9 -/

/-- C9: decoding the token minted by __put_button — the concatenation
`keyboard_uuid + button_uuid` — returns exactly the keyboard uuid and the
button uuid, whenever the keyboard uuid has the fixed generator width of 32
characters. -/
theorem extract_uuids_round_trip (kd : KeyboardData) (v : PyVal) (uuid : String)
    (h : kd.keyboard_uuid.length = 32) :
    extract_uuids (put_button v kd uuid).1 = (kd.keyboard_uuid, uuid) := by
  unfold put_button extract_uuids
  have hdata : (kd.keyboard_uuid ++ uuid).data = kd.keyboard_uuid.data ++ uuid.data :=
    String.data_append _ _
  have hlen : kd.keyboard_uuid.data.length = 32 := h
  refine Prod.ext ?_ ?_
  · show String.mk ((kd.keyboard_uuid ++ uuid).data.take 32) = kd.keyboard_uuid
    apply String.ext
    rw [hdata, List.take_left' hlen]
  · show String.mk ((kd.keyboard_uuid ++ uuid).data.drop 32) = uuid
    apply String.ext
    rw [hdata, List.drop_left' hlen]

/-- Witness for C9 at a concrete 32-character keyboard uuid and button uuid. -/
theorem extract_uuids_round_trip_witness :
    extract_uuids
      (put_button (.int 1)
        ⟨"0123456789abcdef0123456789abcdef", 0, []⟩ "bb").1 =
      ("0123456789abcdef0123456789abcdef", "bb") :=
  extract_uuids_round_trip ⟨"0123456789abcdef0123456789abcdef", 0, []⟩ (.int 1) "bb"
    (by decide)

/-! ### Claim C3, amended -/

/-- C3 amended: every Keyboard Record inserted through putKeyboard has a
non-empty buttonData mapping — put_keyboard preserves the invariant that all
stored records have non-empty buttonData (construction from a snapshot, by
contrast, copies the snapshot's mappings as given, which may be empty; see the
counterexample). -/
theorem put_keyboard_records_nonempty (gen : Nat → String) (ctr : Nat)
    (c : CallbackDataCache) (now : ℚ) (rm : InlineKeyboardMarkup)
    (h : ∀ p ∈ c.keyboard_data, p.2.button_data ≠ []) :
    ∀ p ∈ (put_keyboard gen ctr c now rm).2.1.keyboard_data,
      p.2.button_data ≠ [] := by
  intro p hp
  unfold put_keyboard at hp
  by_cases he :
      (putRows gen rm.inline_keyboard (KeyboardData.init (gen ctr) now none none)
        (ctr + 1)).2.1.button_data.isEmpty
  · rw [if_pos he] at hp
    exact h p hp
  · rw [if_neg he] at hp
    simp only at hp
    rcases mem_lruSet hp with hold | hnew
    · exact h p hold
    · have : (putRows gen rm.inline_keyboard (KeyboardData.init (gen ctr) now none none)
          (ctr + 1)).2.1.button_data ≠ [] := by
        simpa using he
      rw [hnew]
      exact this

/-- Witness for C3 amended: after one put on an empty cache, the single stored
record has non-empty buttonData. -/
theorem put_keyboard_records_nonempty_witness :
    (⟨"u0", 10, [("u1", PyVal.obj 7)]⟩ : KeyboardData).button_data ≠ [] :=
  put_keyboard_records_nonempty (fun n => "u" ++ Nat.repr n) 0 ⟨2, [], []⟩ 10
    ⟨[[⟨"a", some (.obj 7)⟩]]⟩ (by decide)
    ("u0", ⟨"u0", 10, [("u1", PyVal.obj 7)]⟩) (by decide)

theorem lruLookup_cons {β : Type} (p : String × β) (rest : List (String × β))
    (k : String) :
    lruLookup (p :: rest) k = if p.1 = k then some p.2 else lruLookup rest k := by
  unfold lruLookup
  by_cases h : p.1 = k
  · rw [List.find?_cons_of_pos _ (by simpa using h), if_pos h]
    rfl
  · rw [List.find?_cons_of_neg _ (by simpa using h), if_neg h]

theorem lruLookup_filter_ne {β : Type} (es : List (String × β)) {k k0 : String}
    (hne : k ≠ k0) :
    lruLookup (es.filter (fun p => p.1 != k0)) k = lruLookup es k := by
  induction es with
  | nil => rfl
  | cons p rest ih =>
    by_cases h0 : p.1 = k0
    · rw [List.filter_cons_of_neg (by simpa using h0), ih, lruLookup_cons,
        if_neg (fun hh : p.1 = k => hne (hh ▸ h0))]
    · rw [List.filter_cons_of_pos (by simpa using h0), lruLookup_cons,
        lruLookup_cons, ih]

theorem lruLookup_lruTouch {β : Type} (es : List (String × β)) (k0 k : String) :
    lruLookup (lruTouch es k0) k = lruLookup es k := by
  unfold lruTouch
  cases hfind : es.find? (fun p => p.1 == k0) with
  | none => rfl
  | some e =>
    have hkey : e.1 = k0 := by simpa using List.find?_some hfind
    by_cases hk : k = k0
    · subst hk
      rw [lruLookup_append, lruLookup_filter_self]
      have hes : lruLookup es k = some e.2 := by
        unfold lruLookup; rw [hfind]; rfl
      rw [hes, lruLookup_cons, if_pos hkey]
      rfl
    · rw [lruLookup_append, lruLookup_filter_ne _ hk]
      have hone : lruLookup [e] k = none := by
        rw [lruLookup_cons, if_neg (fun hh : e.1 = k => hk (hh ▸ hkey))]
        rfl
      rw [hone]
      cases lruLookup es k <;> rfl

theorem lruLookup_map_replace {β : Type} (es : List (String × β)) (k : String)
    (v : β) :
    lruLookup (es.map (fun p => if p.1 == k then (k, v) else p)) k =
      (lruLookup es k).map (fun _ => v) := by
  induction es with
  | nil => rfl
  | cons p rest ih =>
    simp only [List.map_cons]
    by_cases h : p.1 = k
    · rw [show (if (p.1 == k) = true then (k, v) else p) = (k, v) from by simp [h]]
      simp [lruLookup_cons, h]
    · rw [show (if (p.1 == k) = true then (k, v) else p) = p from by simp [h]]
      rw [lruLookup_cons, lruLookup_cons, if_neg h, if_neg h, ih]

theorem lruLookup_map_replace_ne {β : Type} (es : List (String × β))
    {k k' : String} (v : β) (h : k' ≠ k) :
    lruLookup (es.map (fun p => if p.1 == k then (k, v) else p)) k' =
      lruLookup es k' := by
  induction es with
  | nil => rfl
  | cons p rest ih =>
    simp only [List.map_cons]
    by_cases hp : p.1 = k
    · rw [show (if (p.1 == k) = true then (k, v) else p) = (k, v) from by simp [hp]]
      rw [lruLookup_cons, lruLookup_cons,
        if_neg (fun hh : (k, v).1 = k' => h (hh ▸ rfl)),
        if_neg (fun hh : p.1 = k' => h (hh ▸ hp ▸ rfl)), ih]
    · rw [show (if (p.1 == k) = true then (k, v) else p) = p from by simp [hp]]
      rw [lruLookup_cons, lruLookup_cons, ih]

theorem any_eq_false_lookup_none {β : Type} (es : List (String × β)) (k : String)
    (h : es.any (fun p => p.1 == k) = false) : lruLookup es k = none := by
  apply lruLookup_of_not_mem_keys
  intro p hp hpk
  have hb : (p.1 == k) = true := by simpa using hpk
  have hany : es.any (fun p => p.1 == k) = true := by
    rw [List.any_eq_true]
    exact ⟨p, hp, hb⟩
  rw [h] at hany
  exact Bool.false_ne_true hany

theorem lruLookup_dictSet_self {β : Type} (es : List (String × β)) (k : String)
    (v w : β) (h : lruLookup es k = some w) :
    lruLookup (dictSet es k v) k = some v := by
  unfold dictSet
  cases ha : es.any (fun p => p.1 == k) with
  | true =>
    rw [if_pos rfl, lruLookup_map_replace, h]
    rfl
  | false =>
    rw [any_eq_false_lookup_none es k ha] at h
    exact absurd h (by simp)

theorem lruLookup_dictSet_ne {β : Type} (es : List (String × β)) (k : String)
    (v : β) {k' : String} (h : k' ≠ k) :
    lruLookup (dictSet es k v) k' = lruLookup es k' := by
  unfold dictSet
  cases ha : es.any (fun p => p.1 == k) with
  | true => rw [if_pos rfl, lruLookup_map_replace_ne es v h]
  | false =>
    rw [if_neg (by simp), lruLookup_append, lruLookup_cons,
      if_neg (fun hh : (k, v).1 = k' => h (hh ▸ rfl))]
    cases lruLookup es k' <;> rfl

/-! ### Claim C5 -/

/-- C5: the internal resolution updates the keyboard record's access time if
and only if both lookups (keyboard record, then button payload) succeed; on a
double hit the payload is returned and the record's access time becomes the
current time (all other records untouched); when either lookup misses, the
InvalidCallbackData signal is returned in place of the payload and every
record's access time is unchanged, so a failed resolution never extends a
record's time-based lifetime. -/
theorem get_button_data_access_spec (c : CallbackDataCache) (now : ℚ) (s : String) :
    (∀ kd, lruLookup c.keyboard_data (extract_uuids s).1 = some kd →
      (∀ pd, lruLookup kd.button_data (extract_uuids s).2 = some pd →
        (get_button_data c now s).1 = pd ∧
        lruLookup (get_button_data c now s).2.keyboard_data (extract_uuids s).1 =
          some (kd.updateTime now) ∧
        ∀ k, k ≠ (extract_uuids s).1 →
          lruLookup (get_button_data c now s).2.keyboard_data k =
            lruLookup c.keyboard_data k) ∧
      (lruLookup kd.button_data (extract_uuids s).2 = none →
        (get_button_data c now s).1 = .invalid s ∧
        ∀ k, lruLookup (get_button_data c now s).2.keyboard_data k =
          lruLookup c.keyboard_data k)) ∧
    (lruLookup c.keyboard_data (extract_uuids s).1 = none →
      (get_button_data c now s).1 = .invalid s ∧
      (get_button_data c now s).2 = c) := by
  constructor
  · intro kd hk
    constructor
    · intro pd hb
      have htouch : lruLookup (lruTouch c.keyboard_data (extract_uuids s).1)
          (extract_uuids s).1 = some kd := by
        rw [lruLookup_lruTouch]; exact hk
      have hgd : get_button_data c now s =
          (pd, { c with keyboard_data :=
            (dictSet (lruTouch c.keyboard_data (extract_uuids s).1)
              (extract_uuids s).1 (kd.updateTime now)) }) := by
        simp only [get_button_data, hk, hb]
      rw [hgd]
      refine ⟨rfl, ?_, ?_⟩
      · exact lruLookup_dictSet_self _ _ _ kd htouch
      · intro k hkk
        show lruLookup (dictSet _ _ _) k = _
        rw [lruLookup_dictSet_ne _ _ _ hkk, lruLookup_lruTouch]
    · intro hb
      have hgd : get_button_data c now s =
          (.invalid s, { c with keyboard_data :=
            (lruTouch c.keyboard_data (extract_uuids s).1) }) := by
        simp only [get_button_data, hk, hb]
      rw [hgd]
      exact ⟨rfl, fun k => lruLookup_lruTouch _ _ _⟩
  · intro hk
    have hgd : get_button_data c now s = (.invalid s, c) := by
      simp only [get_button_data, hk]
    rw [hgd]
    exact ⟨rfl, rfl⟩

/-- Witness for C5 at a concrete double hit: keyboard uuid "k" (the whole short
token), button uuid the empty remainder, payload 7; resolution returns the
payload and stamps the access time. -/
theorem get_button_data_access_spec_witness :
    (get_button_data ⟨4, [("k", ⟨"k", 1, [("", .int 7)]⟩)], []⟩ 9 "k").1 = .int 7 ∧
    lruLookup (get_button_data ⟨4, [("k", ⟨"k", 1, [("", .int 7)]⟩)], []⟩ 9 "k").2.keyboard_data
      (extract_uuids "k").1 =
      some ((⟨"k", 1, [("", .int 7)]⟩ : KeyboardData).updateTime 9) :=
  ⟨(((get_button_data_access_spec ⟨4, [("k", ⟨"k", 1, [("", .int 7)]⟩)], []⟩ 9 "k").1
      ⟨"k", 1, [("", .int 7)]⟩ (by decide)).1 (.int 7) (by decide)).1,
   (((get_button_data_access_spec ⟨4, [("k", ⟨"k", 1, [("", .int 7)]⟩)], []⟩ 9 "k").1
      ⟨"k", 1, [("", .int 7)]⟩ (by decide)).1 (.int 7) (by decide)).2.1⟩

/-! ### Claim C6 -/

theorem drop_keyboard_callback_queries (c : CallbackDataCache) (kb : String) :
    (drop_keyboard c kb).callback_queries = c.callback_queries := by
  unfold drop_keyboard
  cases lruPop c.keyboard_data kb <;> rfl

theorem drop_keyboard_lookup_none (c : CallbackDataCache) (kb : String) :
    lruLookup (drop_keyboard c kb).keyboard_data kb = none := by
  unfold drop_keyboard lruPop
  cases hl : lruLookup c.keyboard_data kb with
  | none => exact hl
  | some v => exact lruLookup_filter_self _ _

/-- C6: drop_data fails with the NotFound condition (KeyError) exactly when the
event id has no recorded association; when the association exists it is
removed, the corresponding Keyboard Record is removed silently (whether or not
it was still present), and a second drop_data on the same event then fails
with KeyError. -/
theorem drop_data_spec (c : CallbackDataCache) (q : String) :
    (drop_data c q = .error .keyError ↔ lruLookup c.callback_queries q = none) ∧
    (∀ c', drop_data c q = .ok c' →
      lruLookup c'.callback_queries q = none ∧
      (∀ kb, lruLookup c.callback_queries q = some kb →
        lruLookup c'.keyboard_data kb = none) ∧
      drop_data c' q = .error .keyError) := by
  unfold drop_data lruPop
  cases hl : lruLookup c.callback_queries q with
  | none =>
    refine ⟨⟨fun _ => rfl, fun _ => rfl⟩, ?_⟩
    intro c' hc'
    exact absurd hc' (by simp)
  | some kb0 =>
    constructor
    · constructor
      · intro h
        exact absurd h (by simp)
      · intro h
        exact absurd h (by simp)
    · intro c' hc'
      have hc'eq : c' =
          drop_keyboard { c with callback_queries :=
            (c.callback_queries.filter (fun p => p.1 != q)) } kb0 := by
        simpa using hc'.symm
      subst hc'eq
      have hq : lruLookup (drop_keyboard { c with callback_queries :=
          (c.callback_queries.filter (fun p => p.1 != q)) } kb0).callback_queries q = none := by
        rw [drop_keyboard_callback_queries]
        exact lruLookup_filter_self _ _
      refine ⟨hq, ?_, ?_⟩
      · intro kb hkb
        have : kb = kb0 := (Option.some_inj.mp hkb).symm
        subst this
        exact drop_keyboard_lookup_none _ _
      · rw [hq]

/-- Witness for C6: an association whose keyboard record is already gone — the
drop succeeds silently, the association is removed, and a second drop on the
same event id raises KeyError. -/
theorem drop_data_spec_witness :
    lruLookup (⟨4, [], []⟩ : CallbackDataCache).callback_queries "q" = none ∧
    drop_data ⟨4, [], []⟩ "q" = .error .keyError :=
  ⟨((drop_data_spec ⟨4, [], [("q", "kb")]⟩ "q").2 ⟨4, [], []⟩ (by rfl)).1,
   ((drop_data_spec ⟨4, [], [("q", "kb")]⟩ "q").2 ⟨4, [], []⟩ (by rfl)).2.2⟩

/-! ### Claim C7 -/

theorem get_button_data_callback_queries (c : CallbackDataCache) (now : ℚ)
    (s : String) :
    (get_button_data c now s).2.callback_queries = c.callback_queries := by
  cases hk : lruLookup c.keyboard_data (extract_uuids s).1 with
  | none =>
    have hgd : get_button_data c now s = (.invalid s, c) := by
      simp only [get_button_data, hk]
    rw [hgd]
  | some kd =>
    cases hb : lruLookup kd.button_data (extract_uuids s).2 with
    | none =>
      have hgd : get_button_data c now s =
          (.invalid s, { c with keyboard_data :=
            (lruTouch c.keyboard_data (extract_uuids s).1) }) := by
        simp only [get_button_data, hk, hb]
      rw [hgd]
    | some bd =>
      have hgd : get_button_data c now s =
          (bd, { c with keyboard_data :=
            (dictSet (lruTouch c.keyboard_data (extract_uuids s).1)
              (extract_uuids s).1 (kd.updateTime now)) }) := by
        simp only [get_button_data, hk, hb]
      rw [hgd]

theorem resolveButton_callback_queries (c : CallbackDataCache) (now : ℚ)
    (btn : InlineKeyboardButton) (r : InlineKeyboardButton × CallbackDataCache)
    (h : resolveButton c now btn = .ok r) :
    r.2.callback_queries = c.callback_queries := by
  cases hcb : btn.callback_data with
  | none =>
    simp only [resolveButton, hcb] at h
    cases h
    rfl
  | some v =>
    simp only [resolveButton, hcb] at h
    by_cases hv : pyTruthy v = true
    · rw [if_pos hv] at h
      cases v with
      | str s =>
        cases h
        exact get_button_data_callback_queries c now s
      | int n => exact absurd h (by simp)
      | obj oid => exact absurd h (by simp)
      | invalid raw => exact absurd h (by simp)
    · rw [if_neg hv] at h
      cases h
      rfl

theorem resolveRow_callback_queries (now : ℚ) (l : List InlineKeyboardButton) :
    ∀ (c : CallbackDataCache) (r : List InlineKeyboardButton × CallbackDataCache),
      resolveRow now c l = .ok r → r.2.callback_queries = c.callback_queries := by
  induction l with
  | nil =>
    intro c r h
    cases h
    rfl
  | cons b rest ih =>
    intro c r h
    unfold resolveRow at h
    cases hb : resolveButton c now b with
    | error e =>
      simp only [hb] at h
      exact Except.noConfusion h
    | ok rb =>
      simp only [hb] at h
      cases hr : resolveRow now rb.2 rest with
      | error e =>
        simp only [hr] at h
        exact Except.noConfusion h
      | ok rr =>
        simp only [hr] at h
        cases h
        rw [ih rb.2 rr hr, resolveButton_callback_queries c now b rb hb]

theorem resolveRows_callback_queries (now : ℚ)
    (rows : List (List InlineKeyboardButton)) :
    ∀ (c : CallbackDataCache)
      (r : List (List InlineKeyboardButton) × CallbackDataCache),
      resolveRows now c rows = .ok r → r.2.callback_queries = c.callback_queries := by
  induction rows with
  | nil =>
    intro c r h
    cases h
    rfl
  | cons row rest ih =>
    intro c r h
    unfold resolveRows at h
    cases hb : resolveRow now c row with
    | error e =>
      simp only [hb] at h
      exact Except.noConfusion h
    | ok rb =>
      simp only [hb] at h
      cases hr : resolveRows now rb.2 rest with
      | error e =>
        simp only [hr] at h
        exact Except.noConfusion h
      | ok rr =>
        simp only [hr] at h
        cases h
        rw [ih rb.2 rr hr, resolveRow_callback_queries now row c rb hb]

/-- C7: an event with falsy top-level data is returned unchanged with no side
effects (in particular no association is recorded), and for an event whose
top-level data is a truthy string token, whenever the operation returns, the
event-to-keyboard association (event id mapped to the keyboard half of the
token) is present in the association store of the resulting state — it is
recorded before any resolution, so it is there even when every resolution
failed and the data slot carries the InvalidCallbackData signal. -/
theorem process_callback_query_association (c : CallbackDataCache) (now : ℚ)
    (cq : CallbackQuery) :
    (optTruthy cq.data = false → process_callback_query c now cq = .ok (cq, c)) ∧
    (∀ s, cq.data = some (.str s) → optTruthy cq.data = true →
      ∀ r, process_callback_query c now cq = .ok r →
        lruLookup r.2.callback_queries cq.cq_id = some (extract_uuids s).1) := by
  constructor
  · intro h
    unfold process_callback_query
    rw [h]
    rfl
  · intro s hdata htruthy r hr
    have htr : optTruthy (some (PyVal.str s)) = true := hdata ▸ htruthy
    simp only [process_callback_query, hdata] at hr
    rw [if_pos htr] at hr
    have hself : lruLookup
        (lruSet c.maxsize c.callback_queries cq.cq_id (extract_uuids s).1)
        cq.cq_id = some (extract_uuids s).1 :=
      lruLookup_lruSet_self _ _ _ _
    cases hmsg : cq.message with
    | none =>
      simp only [hmsg] at hr
      cases hr
      rw [get_button_data_callback_queries]
      exact hself
    | some msg =>
      simp only [hmsg] at hr
      cases hrm : msg.reply_markup with
      | none =>
        simp only [hrm] at hr
        cases hr
        rw [get_button_data_callback_queries]
        exact hself
      | some markup =>
        simp only [hrm] at hr
        cases hres : resolveRows now
            (get_button_data
              { c with callback_queries :=
                (lruSet c.maxsize c.callback_queries cq.cq_id (extract_uuids s).1) }
              now s).2 markup.inline_keyboard with
        | error e =>
          simp only [hres] at hr
          exact Except.noConfusion hr
        | ok rr =>
          simp only [hres] at hr
          cases hr
          rw [resolveRows_callback_queries now markup.inline_keyboard _ rr hres,
            get_button_data_callback_queries]
          exact hself

/-- Witness for C7: processing an event carrying an unresolvable token records
the association even though resolution fails. -/
theorem process_callback_query_association_witness :
    lruLookup (⟨2, [], [("id1", "tok")]⟩ : CallbackDataCache).callback_queries
      "id1" = some (extract_uuids "tok").1 :=
  (process_callback_query_association ⟨2, [], []⟩ 5
    ⟨"id1", some (.str "tok"), none⟩).2 "tok" rfl (by decide)
    (⟨"id1", some (.invalid "tok"), none⟩, ⟨2, [], [("id1", "tok")]⟩) (by rfl)

/-! ### Claim C10 -/

theorem mem_dictSet {β : Type} {es : List (String × β)} {k : String} {v : β}
    {p : String × β} (hp : p ∈ dictSet es k v) : p ∈ es ∨ p = (k, v) := by
  unfold dictSet at hp
  by_cases ha : es.any (fun q => q.1 == k) = true
  · rw [if_pos ha] at hp
    rcases List.mem_map.mp hp with ⟨q, hq, hqe⟩
    by_cases hqk : q.1 = k
    · right
      rw [← hqe, if_pos (by simpa using hqk)]
    · left
      rw [← hqe, if_neg (by simpa using hqk)]
      exact hq
  · rw [if_neg ha] at hp
    rcases List.mem_append.mp hp with h | h
    · exact Or.inl h
    · exact Or.inr (List.mem_singleton.mp h)

theorem putButtons_falsy_position (gen : Nat → String)
    (l : List InlineKeyboardButton) :
    ∀ (kd : KeyboardData) (ctr j : Nat) (btn : InlineKeyboardButton),
      l[j]? = some btn → optTruthy btn.callback_data = false →
      (putButtons gen l kd ctr).1[j]? = some btn := by
  induction l with
  | nil =>
    intro kd ctr j btn hj hf
    simp at hj
  | cons b rest ih =>
    intro kd ctr j btn hj hf
    cases j with
    | zero =>
      simp at hj
      subst hj
      cases hcb : b.callback_data with
      | none => simp [putButtons, hcb]
      | some v =>
        have hv : pyTruthy v = false := by simpa [optTruthy, hcb] using hf
        simp [putButtons, hcb, hv]
    | succ j' =>
      simp at hj
      cases hcb : b.callback_data with
      | none =>
        simp only [putButtons, hcb]
        simpa using ih kd ctr j' btn hj hf
      | some v =>
        simp only [putButtons, hcb]
        by_cases hv : pyTruthy v = true
        · rw [if_pos hv]
          simpa using ih (put_button v kd (gen ctr)).2 (ctr + 1) j' btn hj hf
        · rw [if_neg hv]
          simpa using ih kd ctr j' btn hj hf

theorem putRows_falsy_position (gen : Nat → String)
    (rows : List (List InlineKeyboardButton)) :
    ∀ (kd : KeyboardData) (ctr i : Nat) (row : List InlineKeyboardButton)
      (j : Nat) (btn : InlineKeyboardButton),
      rows[i]? = some row → row[j]? = some btn →
      optTruthy btn.callback_data = false →
      ((putRows gen rows kd ctr).1[i]?).bind (fun r => r[j]?) = some btn := by
  induction rows with
  | nil =>
    intro kd ctr i row j btn hi hj hf
    simp at hi
  | cons row0 rest ih =>
    intro kd ctr i row j btn hi hj hf
    cases i with
    | zero =>
      simp at hi
      subst hi
      simpa [putRows] using putButtons_falsy_position gen row0 kd ctr j btn hj hf
    | succ i' =>
      simp at hi
      simpa [putRows] using
        ih (putButtons gen row0 kd ctr).2.1 (putButtons gen row0 kd ctr).2.2
          i' row j btn hi hj hf

theorem resolveButton_falsy (c : CallbackDataCache) (now : ℚ)
    (btn : InlineKeyboardButton) (hf : optTruthy btn.callback_data = false) :
    resolveButton c now btn = .ok (btn, c) := by
  cases hcb : btn.callback_data with
  | none => simp [resolveButton, hcb]
  | some v =>
    have hv : pyTruthy v = false := by simpa [optTruthy, hcb] using hf
    simp [resolveButton, hcb, hv]

theorem resolveRow_falsy_position (now : ℚ) (l : List InlineKeyboardButton) :
    ∀ (c : CallbackDataCache) (r : List InlineKeyboardButton × CallbackDataCache),
      resolveRow now c l = .ok r →
      ∀ (j : Nat) (btn : InlineKeyboardButton),
        l[j]? = some btn → optTruthy btn.callback_data = false →
        r.1[j]? = some btn := by
  induction l with
  | nil =>
    intro c r h j btn hj hf
    simp at hj
  | cons b rest ih =>
    intro c r h j btn hj hf
    unfold resolveRow at h
    cases hb : resolveButton c now b with
    | error e =>
      simp only [hb] at h
      exact Except.noConfusion h
    | ok rb =>
      simp only [hb] at h
      cases hr : resolveRow now rb.2 rest with
      | error e =>
        simp only [hr] at h
        exact Except.noConfusion h
      | ok rr =>
        simp only [hr] at h
        cases h
        cases j with
        | zero =>
          simp at hj
          subst hj
          rw [resolveButton_falsy c now b hf] at hb
          have hrb : (b, c) = rb := Except.ok.inj hb
          simp [← hrb]
        | succ j' =>
          simp at hj
          simpa using ih rb.2 rr hr j' btn hj hf

theorem resolveRows_falsy_position (now : ℚ)
    (rows : List (List InlineKeyboardButton)) :
    ∀ (c : CallbackDataCache)
      (r : List (List InlineKeyboardButton) × CallbackDataCache),
      resolveRows now c rows = .ok r →
      ∀ (i : Nat) (row : List InlineKeyboardButton) (j : Nat)
        (btn : InlineKeyboardButton),
        rows[i]? = some row → row[j]? = some btn →
        optTruthy btn.callback_data = false →
        (r.1[i]?).bind (fun rr2 => rr2[j]?) = some btn := by
  induction rows with
  | nil =>
    intro c r h i row j btn hi hj hf
    simp at hi
  | cons row0 rest ih =>
    intro c r h i row j btn hi hj hf
    unfold resolveRows at h
    cases hb : resolveRow now c row0 with
    | error e =>
      simp only [hb] at h
      exact Except.noConfusion h
    | ok rb =>
      simp only [hb] at h
      cases hr : resolveRows now rb.2 rest with
      | error e =>
        simp only [hr] at h
        exact Except.noConfusion h
      | ok rr =>
        simp only [hr] at h
        cases h
        cases i with
        | zero =>
          simp at hi
          subst hi
          simpa using resolveRow_falsy_position now row0 c rb hb j btn hj hf
        | succ i' =>
          simp at hi
          simpa using ih rb.2 rr hr i' row j btn hi hj hf

theorem putButtons_provenance (gen : Nat → String)
    (l : List InlineKeyboardButton) :
    ∀ (kd : KeyboardData) (ctr : Nat) (p : String × PyVal),
      p ∈ (putButtons gen l kd ctr).2.1.button_data →
      p ∈ kd.button_data ∨
        ∃ btn ∈ l, btn.callback_data = some p.2 ∧ pyTruthy p.2 = true := by
  induction l with
  | nil =>
    intro kd ctr p hp
    exact Or.inl hp
  | cons b rest ih =>
    intro kd ctr p hp
    cases hcb : b.callback_data with
    | none =>
      simp only [putButtons, hcb] at hp
      rcases ih kd ctr p hp with h | ⟨btn, hbtn, he⟩
      · exact Or.inl h
      · exact Or.inr ⟨btn, List.mem_cons_of_mem _ hbtn, he⟩
    | some v =>
      simp only [putButtons, hcb] at hp
      by_cases hv : pyTruthy v = true
      · rw [if_pos hv] at hp
        simp only at hp
        rcases ih (put_button v kd (gen ctr)).2 (ctr + 1) p hp with h | ⟨btn, hbtn, he⟩
        · rcases mem_dictSet h with h2 | h2
          · exact Or.inl h2
          · right
            refine ⟨b, List.mem_cons_self _ _, ?_⟩
            rw [h2]
            exact ⟨hcb, hv⟩
        · exact Or.inr ⟨btn, List.mem_cons_of_mem _ hbtn, he⟩
      · rw [if_neg hv] at hp
        simp only at hp
        rcases ih kd ctr p hp with h | ⟨btn, hbtn, he⟩
        · exact Or.inl h
        · exact Or.inr ⟨btn, List.mem_cons_of_mem _ hbtn, he⟩

/-- C10: payload presence is tested by Python truthiness, not by being set: a
button whose payload is present but falsy (for example the empty string) is
passed through by put_keyboard at its position without being replaced, and
everything newly cached by the button-replacement pass comes from a truthy
payload; such a button is likewise skipped (left unchanged at its position) by
the keyboard resolution of process_callback_query; and an event whose
top-level data field is the empty string is treated as carrying no data and
returned unchanged with an unchanged cache. -/
theorem truthiness_semantics :
    (∀ (gen : Nat → String) (ctr : Nat) (c : CallbackDataCache) (now : ℚ)
      (rm : InlineKeyboardMarkup) (i j : Nat) (btn : InlineKeyboardButton)
      (row : List InlineKeyboardButton),
      rm.inline_keyboard[i]? = some row → row[j]? = some btn →
      optTruthy btn.callback_data = false →
      ((put_keyboard gen ctr c now rm).1.inline_keyboard[i]?).bind
        (fun r => r[j]?) = some btn) ∧
    (∀ (now : ℚ) (c : CallbackDataCache)
      (rows : List (List InlineKeyboardButton))
      (r : List (List InlineKeyboardButton) × CallbackDataCache)
      (i : Nat) (row : List InlineKeyboardButton) (j : Nat)
      (btn : InlineKeyboardButton),
      resolveRows now c rows = .ok r →
      rows[i]? = some row → row[j]? = some btn →
      optTruthy btn.callback_data = false →
      (r.1[i]?).bind (fun rr2 => rr2[j]?) = some btn) ∧
    (∀ (c : CallbackDataCache) (now : ℚ) (cq : CallbackQuery),
      cq.data = some (.str "") →
      process_callback_query c now cq = .ok (cq, c)) ∧
    (∀ (gen : Nat → String) (l : List InlineKeyboardButton) (kd : KeyboardData)
      (ctr : Nat) (p : String × PyVal),
      p ∈ (putButtons gen l kd ctr).2.1.button_data →
      p ∈ kd.button_data ∨
        ∃ btn ∈ l, btn.callback_data = some p.2 ∧ pyTruthy p.2 = true) := by
  refine ⟨?_, ?_, ?_, ?_⟩
  · intro gen ctr c now rm i j btn row hi hj hf
    by_cases he : ((putRows gen rm.inline_keyboard
        (KeyboardData.init (gen ctr) now none none) (ctr + 1)).2.1.button_data.isEmpty
        = true)
    · have hput : (put_keyboard gen ctr c now rm).1 = rm := by
        simp only [put_keyboard]
        rw [if_pos he]
      rw [hput, hi]
      simpa using hj
    · have hput : (put_keyboard gen ctr c now rm).1 =
          ⟨(putRows gen rm.inline_keyboard
            (KeyboardData.init (gen ctr) now none none) (ctr + 1)).1⟩ := by
        simp only [put_keyboard]
        rw [if_neg he]
      rw [hput]
      exact putRows_falsy_position gen rm.inline_keyboard _ _ i row j btn hi hj hf
  · intro now c rows r i row j btn hres hi hj hf
    exact resolveRows_falsy_position now rows c r hres i row j btn hi hj hf
  · intro c now cq hdata
    have h : optTruthy cq.data = false := by rw [hdata]; rfl
    unfold process_callback_query
    rw [h]
    rfl
  · intro gen l kd ctr p hp
    exact putButtons_provenance gen l kd ctr p hp

/-- Witness for C10: an event whose data is the empty string is returned
unchanged with an unchanged cache. -/
theorem truthiness_semantics_witness :
    process_callback_query ⟨2, [], []⟩ 0 ⟨"e", some (.str ""), none⟩ =
      .ok (⟨"e", some (.str ""), none⟩, ⟨2, [], []⟩) :=
  truthiness_semantics.2.2.1 ⟨2, [], []⟩ 0 ⟨"e", some (.str ""), none⟩ rfl

/-! ### Claim C8 -/

theorem lruSet_length_le {β : Type} (cap : Nat) (h : 1 ≤ cap)
    (es : List (String × β)) (k : String) (v : β) :
    (lruSet cap es k v).length ≤ cap := by
  unfold lruSet
  simp only [List.length_append, List.length_drop, List.length_cons,
    List.length_nil]
  omega

theorem put_keyboard_callback_queries (gen : Nat → String) (ctr : Nat)
    (c : CallbackDataCache) (now : ℚ) (rm : InlineKeyboardMarkup) :
    (put_keyboard gen ctr c now rm).2.1.callback_queries = c.callback_queries := by
  simp only [put_keyboard]
  split <;> rfl

theorem put_keyboard_single (gen : Nat → String) (ctr : Nat)
    (c : CallbackDataCache) (now : ℚ) :
    put_keyboard gen ctr c now singleButtonMarkup =
      (⟨[[⟨"b", some (.str (gen ctr ++ gen (ctr + 1)))⟩]]⟩,
       { c with keyboard_data :=
          (lruSet c.maxsize c.keyboard_data (gen ctr) (singleRecord gen now ctr)) },
       ctr + 2) := rfl

theorem freshRecords_succ (gen : Nat → String) (now : ℚ) (ctr n : Nat) :
    freshRecords gen now ctr (n + 1) =
      (gen ctr, singleRecord gen now ctr) :: freshRecords gen now (ctr + 2) n := by
  unfold freshRecords
  rw [List.range_succ_eq_map, List.map_cons, List.map_map]
  simp only [List.cons.injEq]
  constructor
  · simp
  · apply List.map_congr_left
    intro i _
    have harith : ctr + 2 * (i + 1) = ctr + 2 + 2 * i := by ring
    simp [Function.comp, harith]

theorem putMany_eq (gen : Nat → String) (now : ℚ) :
    ∀ (n : Nat) (c : CallbackDataCache) (ctr : Nat),
      (putMany gen now n c ctr).1 =
        { c with keyboard_data :=
            (evictFold c.maxsize c.keyboard_data (freshRecords gen now ctr n)) } := by
  intro n
  induction n with
  | zero => intro c ctr; rfl
  | succ m ih =>
    intro c ctr
    show (putMany gen now m (put_keyboard gen ctr c now singleButtonMarkup).2.1
        (put_keyboard gen ctr c now singleButtonMarkup).2.2).1 = _
    rw [put_keyboard_single]
    rw [ih]
    rw [freshRecords_succ]
    rfl

theorem evictFold_fresh (cap : Nat) (hcap : 1 ≤ cap) :
    ∀ (kvs : List (String × KeyboardData)), (kvs.map Prod.fst).Nodup →
      evictFold cap [] kvs = kvs.drop (kvs.length - cap) := by
  intro kvs
  induction kvs using List.reverseRecOn with
  | nil =>
    intro _
    simp [evictFold]
  | append_singleton l x ih =>
    intro hnd
    rw [List.map_append] at hnd
    have hx : x.1 ∉ l.map Prod.fst := by
      rcases List.nodup_append.mp hnd with ⟨_, _, hdisj⟩
      intro hmem
      exact hdisj hmem (by simp)
    have hl : (l.map Prod.fst).Nodup := (List.nodup_append.mp hnd).1
    show (l ++ [x]).foldl (fun acc p => lruSet cap acc p.1 p.2) [] = _
    rw [List.foldl_append]
    have hfoldl : l.foldl (fun acc p => lruSet cap acc p.1 p.2) [] =
        l.drop (l.length - cap) := ih hl
    rw [hfoldl]
    show lruSet cap (l.drop (l.length - cap)) x.1 x.2 = _
    have hfilter : (l.drop (l.length - cap)).filter (fun p => p.1 != x.1) =
        l.drop (l.length - cap) := by
      rw [List.filter_eq_self]
      intro p hp
      have hpl : p ∈ l := List.mem_of_mem_drop hp
      have hne : p.1 ≠ x.1 :=
        fun he => hx (he ▸ List.mem_map_of_mem Prod.fst hpl)
      simpa using hne
    have hset : lruSet cap (l.drop (l.length - cap)) x.1 x.2 =
        (l.drop (l.length - cap)).drop
          ((l.drop (l.length - cap)).length + 1 - cap) ++ [(x.1, x.2)] := by
      unfold lruSet
      rw [hfilter]
    rw [hset]
    have hlapp : (l ++ [x]).length = l.length + 1 := by simp
    by_cases hcase : l.length + 1 ≤ cap
    · have hz : l.length - cap = 0 := by omega
      rw [hz, List.drop_zero]
      have hz1 : l.length + 1 - cap = 0 := by omega
      rw [hz1, List.drop_zero, hlapp]
      have hz2 : l.length + 1 - cap = 0 := by omega
      rw [hz2, List.drop_zero]
    · have hdlen : (l.drop (l.length - cap)).length = cap := by
        rw [List.length_drop]; omega
      rw [hdlen]
      have h1 : cap + 1 - cap = 1 := by omega
      rw [h1, List.drop_drop, hlapp]
      have h2 : l.length + 1 - cap ≤ l.length := by omega
      rw [List.drop_append_of_le_length h2]
      have h3 : l.length - cap + 1 = l.length + 1 - cap := by omega
      rw [h3]

/-- C8: the two bounded stores never exceed the shared capacity C across
put_keyboard (which leaves the association store untouched and inserts into
the keyboard store with eviction), and inserting C + 1 distinct keyboards via
put_keyboard into an empty cache of capacity C ≥ 1 leaves exactly C keyboard
records, with the least-recently-used (first-inserted, never accessed since)
record silently evicted. -/
theorem lru_capacity_eviction :
    (∀ (gen : Nat → String) (ctr : Nat) (c : CallbackDataCache) (now : ℚ)
      (rm : InlineKeyboardMarkup),
      1 ≤ c.maxsize →
      c.keyboard_data.length ≤ c.maxsize →
      c.callback_queries.length ≤ c.maxsize →
      (put_keyboard gen ctr c now rm).2.1.keyboard_data.length ≤ c.maxsize ∧
      (put_keyboard gen ctr c now rm).2.1.callback_queries.length ≤ c.maxsize) ∧
    (∀ (gen : Nat → String) (now : ℚ) (ctr cap : Nat),
      1 ≤ cap →
      ((List.range (cap + 1)).map (fun i => gen (ctr + 2 * i))).Nodup →
      (putMany gen now (cap + 1) ⟨cap, [], []⟩ ctr).1.keyboard_data.length = cap ∧
      lruLookup (putMany gen now (cap + 1) ⟨cap, [], []⟩ ctr).1.keyboard_data
        (gen ctr) = none) := by
  constructor
  · intro gen ctr c now rm h1 h2 h3
    constructor
    · simp only [put_keyboard]
      split
      · exact h2
      · exact lruSet_length_le c.maxsize h1 _ _ _
    · rw [put_keyboard_callback_queries]
      exact h3
  · intro gen now ctr cap hcap hnd
    have hmany := putMany_eq gen now (cap + 1) ⟨cap, [], []⟩ ctr
    have hkeys : (freshRecords gen now ctr (cap + 1)).map Prod.fst =
        (List.range (cap + 1)).map (fun i => gen (ctr + 2 * i)) := by
      unfold freshRecords
      rw [List.map_map]
      rfl
    have hnd' : ((freshRecords gen now ctr (cap + 1)).map Prod.fst).Nodup := by
      rw [hkeys]; exact hnd
    have hfold := evictFold_fresh cap hcap (freshRecords gen now ctr (cap + 1)) hnd'
    have hlenfr : (freshRecords gen now ctr (cap + 1)).length = cap + 1 := by
      unfold freshRecords
      simp
    have hsplit : (List.range (cap + 1)).map (fun i => gen (ctr + 2 * i)) =
        gen ctr :: (List.range cap).map (fun i => gen (ctr + 2 + 2 * i)) := by
      rw [List.range_succ_eq_map, List.map_cons, List.map_map]
      simp only [List.cons.injEq]
      constructor
      · simp
      · apply List.map_congr_left
        intro i _
        have harith : ctr + 2 * (i + 1) = ctr + 2 + 2 * i := by ring
        simp [Function.comp, harith]
    constructor
    · rw [hmany]
      show (evictFold cap [] (freshRecords gen now ctr (cap + 1))).length = cap
      rw [hfold, List.length_drop, hlenfr]
      omega
    · rw [hmany]
      show lruLookup (evictFold cap [] (freshRecords gen now ctr (cap + 1)))
        (gen ctr) = none
      rw [hfold]
      apply lruLookup_of_not_mem_keys
      intro p hp heq
      rw [hlenfr] at hp
      have hone : cap + 1 - cap = 1 := by omega
      rw [hone, freshRecords_succ, List.drop_one, List.tail_cons] at hp
      have hp1 : p.1 ∈ (freshRecords gen now (ctr + 2) cap).map Prod.fst :=
        List.mem_map_of_mem Prod.fst hp
      have hkeys2 : (freshRecords gen now (ctr + 2) cap).map Prod.fst =
          (List.range cap).map (fun i => gen (ctr + 2 + 2 * i)) := by
        unfold freshRecords
        rw [List.map_map]
        rfl
      rw [hsplit] at hnd
      have hnotin := (List.nodup_cons.mp hnd).1
      rw [hkeys2] at hp1
      rw [heq] at hp1
      exact hnotin hp1

/-- Witness for C8 at capacity 1: two distinct puts keep the store at one
record and evict the first key, and a single put respects the bounds. -/
theorem lru_capacity_eviction_witness :
    ((put_keyboard (fun n => "u" ++ Nat.repr n) 0 ⟨1, [], []⟩ 0
        singleButtonMarkup).2.1.keyboard_data.length ≤ 1 ∧
      (put_keyboard (fun n => "u" ++ Nat.repr n) 0 ⟨1, [], []⟩ 0
        singleButtonMarkup).2.1.callback_queries.length ≤ 1) ∧
    ((putMany (fun n => "u" ++ Nat.repr n) 0 2 ⟨1, [], []⟩ 0).1.keyboard_data.length
        = 1 ∧
      lruLookup (putMany (fun n => "u" ++ Nat.repr n) 0 2
        ⟨1, [], []⟩ 0).1.keyboard_data "u0" = none) :=
  ⟨lru_capacity_eviction.1 (fun n => "u" ++ Nat.repr n) 0 ⟨1, [], []⟩ 0
      singleButtonMarkup (by decide) (by decide) (by decide),
   lru_capacity_eviction.2 (fun n => "u" ++ Nat.repr n) 0 0 1 (by decide) (by decide)⟩
